import Mathlib

/-!
# errorchain: composition and inspection of Go error chains

A shallow embedding of `errors.go` (package `errors` of the repository) and of the three
functions of the Go standard library it delegates to (`errors.Unwrap`, `errors.Is`,
`errors.As`, imported there as `stderrors`).

## Data model

* A Go value of interface type `error` is `error := Option Err`: `none` is `nil`, `some e`
  is a non-nil error value `e`.
* `Err.plain` is an error value of a type of the caller: it exposes `Error()` only (the spec:
  "a plain (non-composite) error terminates the chain"), so it has no `Unwrap`, `Is` or `As`
  method of its own; it has a dynamic type, which may or may not be comparable, and a value
  word, a natural number, that `==` compares.
* `Err.wrappedError a cause err` is the pointer `&wrappedError{cause, err}` whose struct lives
  at address `a`; `Err.withMessage a cause err msg` is the pointer
  `&withMessage{&wrappedError{cause, err}, msg}` at address `a`.  The field `err` has type
  `Err`: the type is unexported and both constructors refuse a nil `err`, so no node with a nil
  `err` exists.
* Allocation is made explicit: every constructor takes the address that its `&T{...}`
  expression returns.

## Recursion and work

* `stderrors.Is.walk` and `stderrors.As.walk` are structurally recursive and unfold the method
  of a node in place; `stderrors.IsFuel`, `stderrors.AsFuel` and `Err.ErrorFuel` run the mutual
  recursion as the source has it, with fuel, and are proved to return the same results.
* `stderrors.Is.steps`, `stderrors.As.steps` and `Err.errorCalls` count loop rounds and method
  calls.
-/

namespace Errorchain

/-- Addresses of heap-allocated nodes. -/
abbrev Addr := Nat

/-- Dynamic types of error values: the two pointer types of the package and the types of the
caller, each of which is comparable or not (a slice or a struct holding a slice is not). -/
inductive DynType
  | ptrWrappedError
  | ptrWithMessage
  | user (id : Nat) (comparable : Bool)
deriving DecidableEq

/-- Non-nil error values. -/
inductive Err
  | plain (ty : Nat) (comparable : Bool) (val : Nat) (text : String)
  | wrappedError (addr : Addr) (cause : Option Err) (err : Err)
  | withMessage (addr : Addr) (cause : Option Err) (err : Err) (msg : String)

/-- The Go interface type `error`; `none` is `nil`. -/
abbrev error := Option Err

/-- Go `reflectlite.Type.Comparable`: pointer types always are. -/
def DynType.Comparable : DynType → Bool
  | .ptrWrappedError => true
  | .ptrWithMessage => true
  | .user _ c => c

/-- Go `reflectlite.TypeOf(err)` for a non-nil `err`. -/
def Err.dynType : Err → DynType
  | .plain ty c _ _ => .user ty c
  | .wrappedError _ _ _ => .ptrWrappedError
  | .withMessage _ _ _ _ => .ptrWithMessage

/-- The word that `==` compares once the dynamic types agree: the address of a node, the value
of a plain error. -/
def Err.word : Err → Nat
  | .plain _ _ val _ => val
  | .wrappedError a _ _ => a
  | .withMessage a _ _ _ => a

/-- Go `a == b` on two non-nil interface values: same dynamic type and same value. -/
def Err.same (a b : Err) : Bool :=
  decide (a.dynType = b.dynType) && decide (a.word = b.word)

/-- Go `a == b` on two values of type `error`. -/
def ifaceEq : error → error → Bool
  | none, none => true
  | some a, some b => a.same b
  | _, _ => false

/-! ## errors.go -/

/-- Source `Wrap(err, cause error) error`; `a` is the address of the new `wrappedError`. -/
def Wrap (a : Addr) (err cause : error) : error :=
  match err with
  | none => none
  | some e => some (.wrappedError a cause e)

/-- Source `New(err error) error`. -/
def New (a : Addr) (err : error) : error :=
  Wrap a err none

/-- Source `WrapWithMessage(err, cause error, msg string) error`; `a` is the address of the new
`withMessage`. -/
def WrapWithMessage (a : Addr) (err cause : error) (msg : String) : error :=
  match err with
  | none => none
  | some e => some (.withMessage a cause e msg)

/-- Source `NewWithMessage(err error, msg string) error`. -/
def NewWithMessage (a : Addr) (err : error) (msg : String) : error :=
  WrapWithMessage a err none msg

/-- The method `Error()` of a non-nil error value, dispatched on its dynamic type: a plain
error gives its own text, a node runs `(*wrappedError).Error` or `(*withMessage).Error`. -/
def Err.Error : Err → String
  | .plain _ _ _ text => text
  | .wrappedError _ cause err =>
    match cause with
    | none => err.Error
    | some c => err.Error ++ ": " ++ c.Error
  | .withMessage _ cause err msg =>
    match cause with
    | none => msg ++ ": " ++ err.Error
    | some c => msg ++ ": " ++ err.Error ++ ": " ++ c.Error

/-- Calling `Error()` on a value of type `error`: `none` when the value is nil (the call
faults), the text otherwise. -/
def error.Error (e : error) : Option String :=
  e.map Err.Error

/-- Source `(*wrappedError).Unwrap`, also promoted to `*withMessage`. -/
def wrappedError.Unwrap (cause : error) (_err : Err) : error :=
  cause

/-! ## The standard library functions used by errors.go -/

/-- Go `errors.Unwrap`: calls the `Unwrap` method when the dynamic type has one, and returns
nil otherwise. -/
def stderrors.Unwrap : error → error
  | some (.wrappedError _ cause err) => wrappedError.Unwrap cause err
  | some (.withMessage _ cause err _) => wrappedError.Unwrap cause err
  | _ => none

/-- The `for` loop of Go `errors.Is` on a non-nil `target` and a non-nil `err`:
`isComparable && err == target`, then the `Is` method when the dynamic type has one (a node:
the body of `(*wrappedError).Is`, which calls `errors.Is` on `e.err` and then on `e.cause`),
then `err = Unwrap(err)` and the next round, ending with false on nil. -/
def stderrors.Is.walk (target : Err) : Err → Bool
  | .plain ty c val text =>
    target.dynType.Comparable && (Err.plain ty c val text).same target
  | .wrappedError a cause err =>
    if target.dynType.Comparable && (Err.wrappedError a cause err).same target then true
    else if (if walk target err then true
             else match cause with
               | none => false
               | some c => walk target c) then true
    else match cause with
      | none => false
      | some c => walk target c
  | .withMessage a cause err msg =>
    if target.dynType.Comparable && (Err.withMessage a cause err msg).same target then true
    else if (if walk target err then true
             else match cause with
               | none => false
               | some c => walk target c) then true
    else match cause with
      | none => false
      | some c => walk target c

/-- Go `errors.Is(err, target)`: `err == target` when `target` is nil, the loop otherwise (a
nil `err` equals no non-nil target, has no method and unwraps to nil). -/
def stderrors.Is (err target : error) : Bool :=
  match target with
  | none => ifaceEq err none
  | some t =>
    match err with
    | none => false
    | some e => stderrors.Is.walk t e

/-- Source `(*wrappedError).Is`, also promoted to `*withMessage`. -/
def wrappedError.Is (cause : error) (err : Err) (target : error) : Bool :=
  if stderrors.Is (some err) target then true
  else stderrors.Is cause target

/-- The `target interface{}` argument of `As`: nil, a value that is no pointer, a nil pointer,
a pointer to a type that is neither an interface nor implements `error`, or a pointer to a
slot of a type to which exactly the dynamic types in `assignable` can be assigned. -/
inductive AsTarget
  | untypedNil
  | notPointer
  | nilPointer
  | badElem
  | slot (assignable : DynType → Bool)

/-- The panics of Go `errors.As`. -/
inductive Fault
  | targetNil
  | targetNotNonNilPointer
  | targetElemNotError
deriving DecidableEq

/-- The `for err != nil` loop of Go `errors.As` on a non-nil `err`, threading the content of
the slot `*target`: when the dynamic type of `err` is assignable the slot is set to `err`; else
the `As` method runs when the dynamic type has one (a node: the body of `(*wrappedError).As`,
which calls `errors.As` on `e.err` and then on `e.cause`); else `err = Unwrap(err)`. -/
def stderrors.As.walk (assignable : DynType → Bool) : Err → error → Bool × error
  | .plain ty c val text, slot =>
    if assignable (.user ty c) then (true, some (.plain ty c val text))
    else (false, slot)
  | .wrappedError a cause err, slot =>
    if assignable .ptrWrappedError then (true, some (.wrappedError a cause err))
    else
      let r := walk assignable err slot
      if r.1 then r
      else
        let r := match cause with
          | none => (false, r.2)
          | some c => walk assignable c r.2
        if r.1 then r
        else match cause with
          | none => (false, r.2)
          | some c => walk assignable c r.2
  | .withMessage a cause err msg, slot =>
    if assignable .ptrWithMessage then (true, some (.withMessage a cause err msg))
    else
      let r := walk assignable err slot
      if r.1 then r
      else
        let r := match cause with
          | none => (false, r.2)
          | some c => walk assignable c r.2
        if r.1 then r
        else match cause with
          | none => (false, r.2)
          | some c => walk assignable c r.2

/-- Go `errors.As(err, target)` with the content `slot` of `*target` before the call: the
result is a panic, or the returned boolean with the content of `*target` after the call. -/
def stderrors.As (err : error) (target : AsTarget) (slot : error) :
    Except Fault (Bool × error) :=
  match target with
  | .untypedNil => .error .targetNil
  | .notPointer => .error .targetNotNonNilPointer
  | .nilPointer => .error .targetNotNonNilPointer
  | .badElem => .error .targetElemNotError
  | .slot assignable =>
    match err with
    | none => .ok (false, slot)
    | some e => .ok (stderrors.As.walk assignable e slot)

/-- Source `(*wrappedError).As`, also promoted to `*withMessage`. -/
def wrappedError.As (cause : error) (err : Err) (target : AsTarget) (slot : error) :
    Except Fault (Bool × error) :=
  match stderrors.As (some err) target slot with
  | .error f => .error f
  | .ok (true, s) => .ok (true, s)
  | .ok (false, s) => stderrors.As cause target s

/-- Source `Unwrap(err error) error`. -/
def Unwrap (err : error) : error :=
  stderrors.Unwrap err

/-- Source `Is(err, target error) bool`. -/
def Is (err target : error) : Bool :=
  stderrors.Is err target

/-- Source `As(err error, target interface{}) bool`. -/
def As (err : error) (target : AsTarget) (slot : error) : Except Fault (Bool × error) :=
  stderrors.As err target slot

/-! ## Notions of the specification -/

/-- Everything an error value holds: the value itself and, for a node, everything within its
`err` and within its `cause`. -/
def Err.within : Err → List Err
  | .plain ty c val text => [.plain ty c val text]
  | .wrappedError a cause err =>
    .wrappedError a cause err :: (err.within ++
      match cause with
      | none => []
      | some c => c.within)
  | .withMessage a cause err msg =>
    .withMessage a cause err msg :: (err.within ++
      match cause with
      | none => []
      | some c => c.within)

/-- The segments of a chain in the words of the specification: newest node first, within each
node the message if one is attached and then the description of the primary, and at the end
the description of the terminal plain cause. -/
def chainSegments : Err → List String
  | .plain _ _ _ text => [text]
  | .wrappedError _ cause err =>
    err.Error ::
      match cause with
      | none => []
      | some c => chainSegments c
  | .withMessage _ cause err msg =>
    msg :: err.Error ::
      match cause with
      | none => []
      | some c => chainSegments c

/-- The errors a chain is made of in the words of the specification: the primary of every node
along the causes, and the terminal plain cause. -/
def chainMembers : Err → List Err
  | .plain ty c val text => [.plain ty c val text]
  | .wrappedError _ cause err =>
    err ::
      match cause with
      | none => []
      | some c => chainMembers c
  | .withMessage _ cause err _ =>
    err ::
      match cause with
      | none => []
      | some c => chainMembers c

/-! ## Values of the tests and of the example program -/

/-- Test value `causeError = &testError{"cause"}`: a pointer, type id 10, at address 1. -/
def causeError : Err := .plain 10 true 1 "cause"

/-- Test value `newError = &testError{"new"}`: a pointer, type id 10, at address 2. -/
def newError : Err := .plain 10 true 2 "new"

/-- Test value `otherError = &missingError{"other"}`: a pointer, type id 11, at address 3. -/
def otherError : Err := .plain 11 true 3 "other"

/-- A value of a slice type with an `Error` method, such as `type fieldErrors []string`: its
dynamic type (id 20) is not comparable. -/
def sliceError : Err := .plain 20 false 0 "invalid fields"

/-- Example `grandparentError = customError("grandparent")`: a string type, id 1. -/
def grandparentError : Err := .plain 1 true 0 "grandparent"

/-- Example `parentError = customError("parent")`. -/
def parentError : Err := .plain 1 true 1 "parent"

/-- Example `childError = customError("child")`. -/
def childError : Err := .plain 1 true 2 "child"

/-- Example `generateGrandparentError`, allocating at `a`. -/
def generateGrandparentError (a : Addr) : error :=
  NewWithMessage a (some grandparentError) "top-most error"

/-- Example `generateParentError`, allocating at `a` and then at `b`. -/
def generateParentError (a b : Addr) : error :=
  match generateGrandparentError a with
  | some err => Wrap b (some parentError) (some err)
  | none => none

/-- Example `generateChildError`, allocating at `a`, `b` and then `c`. -/
def generateChildError (a b c : Addr) : error :=
  match generateParentError a b with
  | some err => Wrap c (some childError) (some err)
  | none => none

/-- The slot type `error`: every dynamic type of an error value can be assigned to it. -/
def errorSlot : DynType → Bool :=
  fun _ => true

/-- The slot type `interface{ Unwrap() error }`: of the dynamic types of the model, the two
node types have the method, the plain types do not. -/
def unwrapperSlot : DynType → Bool
  | .ptrWrappedError => true
  | .ptrWithMessage => true
  | .user _ _ => false

/-- The slot type `*testError` of the tests: exactly the dynamic type with id 10. -/
def testErrorSlot : DynType → Bool
  | .user 10 true => true
  | _ => false

/-! ## Counting the work of the walkers -/

/-- The number of rounds of the loop of `errors.Is` on non-nil errors plus the number of calls
of `(*wrappedError).Is` that `errors.Is(err, target)` performs on non-nil `err` and `target`:
`stderrors.Is.walk` with a counter, stopping where the walk stops. -/
def stderrors.Is.steps (target : Err) : Err → Nat
  | .plain _ _ _ _ => 1
  | .wrappedError a cause err =>
    if target.dynType.Comparable && (Err.wrappedError a cause err).same target then 1
    else 2 + steps target err +
      if stderrors.Is.walk target err then 0
      else match cause with
        | none => 0
        | some c => steps target c + if stderrors.Is.walk target c then 0 else steps target c
  | .withMessage a cause err msg =>
    if target.dynType.Comparable && (Err.withMessage a cause err msg).same target then 1
    else 2 + steps target err +
      if stderrors.Is.walk target err then 0
      else match cause with
        | none => 0
        | some c => steps target c + if stderrors.Is.walk target c then 0 else steps target c

/-- The number of rounds of the loop of `errors.As` on non-nil errors plus the number of calls
of `(*wrappedError).As` that `errors.As(err, target)` performs on a non-nil `err` and a
well-formed target: `stderrors.As.walk` with a counter, stopping where the walk stops. -/
def stderrors.As.steps (assignable : DynType → Bool) : Err → error → Nat
  | .plain _ _ _ _, _ => 1
  | .wrappedError _ cause err, slot =>
    if assignable .ptrWrappedError then 1
    else 2 + steps assignable err slot +
      if (stderrors.As.walk assignable err slot).1 then 0
      else match cause with
        | none => 0
        | some c =>
          steps assignable c (stderrors.As.walk assignable err slot).2 +
            if (stderrors.As.walk assignable c (stderrors.As.walk assignable err slot).2).1 then 0
            else steps assignable c
              (stderrors.As.walk assignable c (stderrors.As.walk assignable err slot).2).2
  | .withMessage _ cause err _, slot =>
    if assignable .ptrWithMessage then 1
    else 2 + steps assignable err slot +
      if (stderrors.As.walk assignable err slot).1 then 0
      else match cause with
        | none => 0
        | some c =>
          steps assignable c (stderrors.As.walk assignable err slot).2 +
            if (stderrors.As.walk assignable c (stderrors.As.walk assignable err slot).2).1 then 0
            else steps assignable c
              (stderrors.As.walk assignable c (stderrors.As.walk assignable err slot).2).2

/-- The number of calls of an `Error` method that `err.Error()` performs. -/
def Err.errorCalls : Err → Nat
  | .plain _ _ _ _ => 1
  | .wrappedError _ cause err =>
    1 + err.errorCalls +
      match cause with
      | none => 0
      | some c => c.errorCalls
  | .withMessage _ cause err _ =>
    1 + err.errorCalls +
      match cause with
      | none => 0
      | some c => c.errorCalls

/-- The chain of `n` nested nodes `Wrap(newError, Wrap(newError, ... causeError))`, the node
at nesting level `k` allocated at address `100 + k`. -/
def wrapChain : Nat → Err
  | 0 => causeError
  | n + 1 => .wrappedError (100 + n) (some (wrapChain n)) newError

/-- The slot type `*missingError` of the tests: exactly the dynamic type with id 11. -/
def missingErrorSlot : DynType → Bool
  | .user 11 true => true
  | _ => false

/-- The nesting depth of an error value: 1 for a plain error, one more than the deeper of
`err` and `cause` for a node. -/
def Err.depth : Err → Nat
  | .plain _ _ _ _ => 1
  | .wrappedError _ cause err =>
    1 + max err.depth
      (match cause with
      | none => 0
      | some c => c.depth)
  | .withMessage _ cause err _ =>
    1 + max err.depth
      (match cause with
      | none => 0
      | some c => c.depth)

/-! ## The mutual recursion of the source, run with fuel

The walks above unfold the method of a node in place.  Here the functions call each other as
in the source: `errors.Is` runs its loop, the loop calls the method `Is` of a node, the method
calls `errors.Is`.  Every call takes one unit of fuel and `none` means that the fuel ran
out. -/

mutual
/-- Go `errors.Is` with fuel. -/
def stderrors.IsFuel : Nat → error → error → Option Bool
  | 0, _, _ => none
  | n + 1, err, target =>
    match target with
    | none => some (ifaceEq err none)
    | some t => stderrors.IsLoopFuel n err t
/-- The `for` loop of Go `errors.Is` with fuel, one round per call. -/
def stderrors.IsLoopFuel : Nat → error → Err → Option Bool
  | 0, _, _ => none
  | n + 1, err, t =>
    if t.dynType.Comparable && ifaceEq err (some t) then some true
    else
      match (match err with
        | some (.wrappedError _ cause e) => wrappedError.IsFuel n cause e (some t)
        | some (.withMessage _ cause e _) => wrappedError.IsFuel n cause e (some t)
        | _ => some false) with
      | none => none
      | some true => some true
      | some false =>
        match stderrors.Unwrap err with
        | none => some false
        | some u => stderrors.IsLoopFuel n (some u) t
/-- Source `(*wrappedError).Is` with fuel. -/
def wrappedError.IsFuel : Nat → error → Err → error → Option Bool
  | 0, _, _, _ => none
  | n + 1, cause, err, target =>
    match stderrors.IsFuel n (some err) target with
    | none => none
    | some true => some true
    | some false => stderrors.IsFuel n cause target
end

mutual
/-- Go `errors.As` with fuel. -/
def stderrors.AsFuel : Nat → error → AsTarget → error → Option (Except Fault (Bool × error))
  | 0, _, _, _ => none
  | n + 1, err, target, slot =>
    match target with
    | .untypedNil => some (.error .targetNil)
    | .notPointer => some (.error .targetNotNonNilPointer)
    | .nilPointer => some (.error .targetNotNonNilPointer)
    | .badElem => some (.error .targetElemNotError)
    | .slot assignable => stderrors.AsLoopFuel n err assignable slot
/-- The `for err != nil` loop of Go `errors.As` with fuel, one round per call. -/
def stderrors.AsLoopFuel :
    Nat → error → (DynType → Bool) → error → Option (Except Fault (Bool × error))
  | 0, _, _, _ => none
  | _ + 1, none, _, slot => some (.ok (false, slot))
  | n + 1, some e, assignable, slot =>
    if assignable e.dynType then some (.ok (true, some e))
    else
      match (match e with
        | .wrappedError _ cause x => wrappedError.AsFuel n cause x (.slot assignable) slot
        | .withMessage _ cause x _ => wrappedError.AsFuel n cause x (.slot assignable) slot
        | .plain _ _ _ _ => some (.ok (false, slot))) with
      | none => none
      | some (.error f) => some (.error f)
      | some (.ok (true, s)) => some (.ok (true, s))
      | some (.ok (false, s)) => stderrors.AsLoopFuel n (stderrors.Unwrap (some e)) assignable s
/-- Source `(*wrappedError).As` with fuel. -/
def wrappedError.AsFuel :
    Nat → error → Err → AsTarget → error → Option (Except Fault (Bool × error))
  | 0, _, _, _, _ => none
  | n + 1, cause, err, target, slot =>
    match stderrors.AsFuel n (some err) target slot with
    | none => none
    | some (.error f) => some (.error f)
    | some (.ok (true, s)) => some (.ok (true, s))
    | some (.ok (false, s)) => stderrors.AsFuel n cause target s
end

/-- The method `Error()` with fuel: every call of an `Error` method takes one unit. -/
def Err.ErrorFuel : Nat → Err → Option String
  | 0, _ => none
  | _ + 1, .plain _ _ _ text => some text
  | n + 1, .wrappedError _ cause err =>
    match cause with
    | none => Err.ErrorFuel n err
    | some c =>
      match Err.ErrorFuel n err, Err.ErrorFuel n c with
      | some s, some t => some (s ++ ": " ++ t)
      | _, _ => none
  | n + 1, .withMessage _ cause err msg =>
    match cause with
    | none => (Err.ErrorFuel n err).map (fun s => msg ++ ": " ++ s)
    | some c =>
      match Err.ErrorFuel n err, Err.ErrorFuel n c with
      | some s, some t => some (msg ++ ": " ++ s ++ ": " ++ t)
      | _, _ => none

/-! ## Structural induction -/

/-- Induction on error values: the cases of a node come with the property for its `err` and
for its `cause` when there is one. -/
theorem Err.induct {P : Err → Prop}
    (plain : ∀ ty c val text, P (.plain ty c val text))
    (wrapped : ∀ a cause err, P err → (∀ c, cause = some c → P c) →
      P (.wrappedError a cause err))
    (message : ∀ a cause err msg, P err → (∀ c, cause = some c → P c) →
      P (.withMessage a cause err msg)) :
    ∀ e, P e
  | .plain ty c val text => plain ty c val text
  | .wrappedError a none err =>
    wrapped a none err (Err.induct plain wrapped message err) (fun _ h => by cases h)
  | .wrappedError a (some c) err =>
    wrapped a (some c) err (Err.induct plain wrapped message err)
      (fun _ h => by cases h; exact Err.induct plain wrapped message c)
  | .withMessage a none err msg =>
    message a none err msg (Err.induct plain wrapped message err) (fun _ h => by cases h)
  | .withMessage a (some c) err msg =>
    message a (some c) err msg (Err.induct plain wrapped message err)
      (fun _ h => by cases h; exact Err.induct plain wrapped message c)

/-! ## Construction -/

/-- C1: each of the four constructors returns nil exactly when `primary` is nil, whatever the
cause and the message are. -/
theorem constructors_nil_iff (a : Addr) (primary cause : error) (msg : String) :
    (New a primary = none ↔ primary = none) ∧
    (Wrap a primary cause = none ↔ primary = none) ∧
    (NewWithMessage a primary msg = none ↔ primary = none) ∧
    (WrapWithMessage a primary cause msg = none ↔ primary = none) := by
  cases primary <;> simp [New, Wrap, NewWithMessage, WrapWithMessage]

/-! ## Rendering -/

/-- C2: for non-nil `p` and `c`, `Wrap(p, c).Error()` is `p.Error() + ": " + c.Error()`, and
`Wrap(p, nil).Error()` and `New(p).Error()` are exactly `p.Error()`. -/
theorem wrap_error (a : Addr) (p c : Err) :
    (Wrap a (some p) (some c)).Error = some (p.Error ++ ": " ++ c.Error) ∧
    (Wrap a (some p) none).Error = some p.Error ∧
    (New a (some p)).Error = some p.Error := by
  simp [New, Wrap, error.Error, Err.Error]

/-- C3: for non-nil `p` and `c`, `WrapWithMessage(p, c, m).Error()` is
`m + ": " + p.Error() + ": " + c.Error()`, and `NewWithMessage(p, m).Error()` is
`m + ": " + p.Error()`. -/
theorem wrap_with_message_error (a : Addr) (p c : Err) (m : String) :
    (WrapWithMessage a (some p) (some c) m).Error =
      some (m ++ ": " ++ p.Error ++ ": " ++ c.Error) ∧
    (NewWithMessage a (some p) m).Error = some (m ++ ": " ++ p.Error) := by
  simp [NewWithMessage, WrapWithMessage, error.Error, Err.Error]

/-- Joining with a separator: the accumulator of `String.intercalate` can be split. -/
theorem intercalate_go_append (s x y : String) (l : List String) :
    String.intercalate.go (x ++ y) s l = x ++ String.intercalate.go y s l := by
  induction l generalizing y with
  | nil => simp [String.intercalate.go]
  | cons a l ih =>
    simp only [String.intercalate.go]
    rw [String.append_assoc, String.append_assoc, ← String.append_assoc y s a, ih]

/-- Joining at least two segments: the first, the separator, the rest joined. -/
theorem intercalate_cons_cons (s a b : String) (l : List String) :
    s.intercalate (a :: b :: l) = a ++ s ++ s.intercalate (b :: l) := by
  simp only [String.intercalate, String.intercalate.go]
  rw [intercalate_go_append]

/-- A chain has at least one segment. -/
theorem chainSegments_ne_nil (e : Err) : ∃ b l, chainSegments e = b :: l := by
  rcases e with _ | ⟨_, _ | _, _⟩ | ⟨_, _ | _, _, _⟩ <;> exact ⟨_, _, rfl⟩

/-- C4: for every chain, `Error()` of the outermost node is the list of the segments of the
chain (newest node first, per node the message if attached and then the description of the
primary, at the end the description of the terminal plain cause) joined by `": "`; and the
chain of the example program renders as `"child: parent: top-most error: grandparent"`. -/
theorem error_joins_chain_segments (e : Err) (a b c : Addr) :
    e.Error = ": ".intercalate (chainSegments e) ∧
    (generateChildError a b c).Error = some "child: parent: top-most error: grandparent" := by
  refine ⟨?_, rfl⟩
  induction e using Err.induct with
  | plain ty c val text =>
    simp [Err.Error, chainSegments, String.intercalate, String.intercalate.go]
  | wrapped a cause err _ ihc =>
    cases cause with
    | none => simp [Err.Error, chainSegments, String.intercalate, String.intercalate.go]
    | some c =>
      obtain ⟨b, l, hbl⟩ := chainSegments_ne_nil c
      simp only [Err.Error, chainSegments]
      rw [hbl, intercalate_cons_cons, ← hbl, ← ihc c rfl]
  | message a cause err msg _ ihc =>
    cases cause with
    | none => simp [Err.Error, chainSegments, String.intercalate, String.intercalate.go]
    | some c =>
      obtain ⟨b, l, hbl⟩ := chainSegments_ne_nil c
      simp only [Err.Error, chainSegments]
      rw [intercalate_cons_cons, hbl, intercalate_cons_cons, ← hbl, ← ihc c rfl]
      simp [String.append_assoc]

/-! ## Unwrap -/

/-- C5: for non-nil `p` and every cause `c`, nil or not, `Unwrap(Wrap(p, c))` is `c` itself:
the stored cause, one step only, and nil when `c` is nil. -/
theorem unwrap_wrap (a : Addr) (p : Err) (c : error) :
    Unwrap (Wrap a (some p) c) = c := by
  simp [Unwrap, Wrap, stderrors.Unwrap, wrappedError.Unwrap]

/-! ## Is: the loop of `errors.Is` against the methods of the source -/

/-- Go `==` is reflexive on the values of the model. -/
theorem Err.same_self (e : Err) : e.same e = true := by
  simp [Err.same]

/-- On a plain error one round of the loop of `errors.Is` is the comparison alone. -/
theorem stderrors.isWalk_plain (t : Err) (ty : Nat) (c : Bool) (val : Nat) (text : String) :
    stderrors.Is.walk t (.plain ty c val text) =
      (t.dynType.Comparable && (Err.plain ty c val text).same t) := by
  simp [stderrors.Is.walk]

/-- On a `*wrappedError` one round of the loop of `errors.Is` is the comparison, then the
method `(*wrappedError).Is` of the source, then `errors.Is` on what `Unwrap` returns. -/
theorem stderrors.isWalk_wrappedError (t : Err) (a : Addr) (cause : error) (err : Err) :
    stderrors.Is.walk t (.wrappedError a cause err) =
      (t.dynType.Comparable && (Err.wrappedError a cause err).same t
        || wrappedError.Is cause err (some t) || stderrors.Is cause (some t)) := by
  cases cause <;> simp [stderrors.Is.walk, wrappedError.Is, stderrors.Is]
  tauto

/-- On a `*withMessage` one round of the loop of `errors.Is` is the comparison, then the
promoted method `(*wrappedError).Is`, then `errors.Is` on what `Unwrap` returns. -/
theorem stderrors.isWalk_withMessage (t : Err) (a : Addr) (cause : error) (err : Err)
    (msg : String) :
    stderrors.Is.walk t (.withMessage a cause err msg) =
      (t.dynType.Comparable && (Err.withMessage a cause err msg).same t
        || wrappedError.Is cause err (some t) || stderrors.Is cause (some t)) := by
  cases cause <;> simp [stderrors.Is.walk, wrappedError.Is, stderrors.Is]
  tauto

/-- An error of comparable dynamic type matches itself at the first comparison. -/
theorem stderrors.isWalk_self (e : Err) (h : e.dynType.Comparable = true) :
    stderrors.Is.walk e e = true := by
  cases e <;> simp [stderrors.isWalk_plain, stderrors.isWalk_wrappedError,
    stderrors.isWalk_withMessage, h, Err.same_self]

/-- An error value is within itself. -/
theorem Err.mem_within_self (e : Err) : e ∈ e.within := by
  rcases e with _ | ⟨_, _ | _, _⟩ | ⟨_, _ | _, _, _⟩ <;> simp [Err.within]

/-- The loop of `errors.Is` answers false when the target equals nothing within `e`. -/
theorem stderrors.isWalk_eq_false (u : Err) :
    ∀ e : Err, (∀ x ∈ e.within, x.same u = false) → stderrors.Is.walk u e = false := by
  intro e
  induction e using Err.induct with
  | plain ty c val text =>
    intro h
    simp [stderrors.isWalk_plain, h _ (Err.mem_within_self _)]
  | wrapped a cause err ihe ihc =>
    intro h
    have h1 := h _ (Err.mem_within_self _)
    cases cause with
    | none =>
      have h2 := ihe (fun x hx => h x (by simp [Err.within, hx]))
      simp [stderrors.Is.walk, h1, h2]
    | some c =>
      have h2 := ihe (fun x hx => h x (by simp [Err.within, hx]))
      have h3 := ihc c rfl (fun x hx => h x (by simp [Err.within, hx]))
      simp [stderrors.Is.walk, h1, h2, h3]
  | message a cause err msg ihe ihc =>
    intro h
    have h1 := h _ (Err.mem_within_self _)
    cases cause with
    | none =>
      have h2 := ihe (fun x hx => h x (by simp [Err.within, hx]))
      simp [stderrors.Is.walk, h1, h2]
    | some c =>
      have h2 := ihe (fun x hx => h x (by simp [Err.within, hx]))
      have h3 := ihc c rfl (fun x hx => h x (by simp [Err.within, hx]))
      simp [stderrors.Is.walk, h1, h2, h3]

/-- The loop of `errors.Is` finds every member of the chain whose dynamic type is
comparable. -/
theorem stderrors.isWalk_of_mem_chain :
    ∀ chain e : Err, e ∈ chainMembers chain → e.dynType.Comparable = true →
      stderrors.Is.walk e chain = true := by
  intro chain
  induction chain using Err.induct with
  | plain ty c val text =>
    intro e he hc
    simp [chainMembers] at he
    subst he
    exact stderrors.isWalk_self _ hc
  | wrapped a cause err _ ihc =>
    intro e he hc
    cases cause with
    | none =>
      simp [chainMembers] at he
      subst he
      simp [stderrors.Is.walk, stderrors.isWalk_self _ hc]
    | some c =>
      simp [chainMembers] at he
      rcases he with he | he
      · subst he
        simp [stderrors.Is.walk, stderrors.isWalk_self _ hc]
      · simp [stderrors.Is.walk, ihc c rfl e he hc]
  | message a cause err msg _ ihc =>
    intro e he hc
    cases cause with
    | none =>
      simp [chainMembers] at he
      subst he
      simp [stderrors.Is.walk, stderrors.isWalk_self _ hc]
    | some c =>
      simp [chainMembers] at he
      rcases he with he | he
      · subst he
        simp [stderrors.Is.walk, stderrors.isWalk_self _ hc]
      · simp [stderrors.Is.walk, ihc c rfl e he hc]

/-- C6, as stated, fails: a primary or a cause whose dynamic type is not comparable (a value
of a slice type) is never matched, since `errors.Is` compares only under `isComparable`. -/
theorem is_primary_or_cause_fails_uncomparable :
    Is (Wrap 100 (some sliceError) (some causeError)) (some sliceError) = false ∧
    Is (Wrap 100 (some newError) (some sliceError)) (some sliceError) = false := by
  decide

/-- C6, amended: for non-nil `p` and `c`, `Is(Wrap(p, c), p)` is true when the dynamic type of
`p` is comparable, and `Is(Wrap(p, c), c)` is true when the dynamic type of `c` is
comparable. -/
theorem is_primary_and_cause (a : Addr) (p c : Err) :
    (p.dynType.Comparable = true → Is (Wrap a (some p) (some c)) (some p) = true) ∧
    (c.dynType.Comparable = true → Is (Wrap a (some p) (some c)) (some c) = true) := by
  constructor
  · intro h
    simp [Is, Wrap, stderrors.Is, stderrors.Is.walk, stderrors.isWalk_self _ h]
  · intro h
    simp [Is, Wrap, stderrors.Is, stderrors.Is.walk, stderrors.isWalk_self _ h]

/-- C6, amended, on the values of the test `TestIs`. -/
theorem is_primary_and_cause_witness :
    Is (Wrap 100 (some newError) (some causeError)) (some newError) = true ∧
    Is (Wrap 100 (some newError) (some causeError)) (some causeError) = true :=
  ⟨(is_primary_and_cause 100 newError causeError).1 (by decide),
   (is_primary_and_cause 100 newError causeError).2 (by decide)⟩

/-- C7, as stated, fails: the node `Wrap(p, c)` itself is neither `p`, nor `c`, nor anything
they hold, and `Is` of the node against itself is true. -/
theorem is_unrelated_fails_on_node_itself :
    (∀ x ∈ newError.within, x.same (.wrappedError 100 (some causeError) newError) = false) ∧
    (∀ x ∈ causeError.within, x.same (.wrappedError 100 (some causeError) newError) = false) ∧
    Wrap 100 (some newError) (some causeError) =
      some (.wrappedError 100 (some causeError) newError) ∧
    Is (Wrap 100 (some newError) (some causeError))
      (some (.wrappedError 100 (some causeError) newError)) = true := by
  refine ⟨by decide, by decide, rfl, by decide⟩

/-- C7, amended: for non-nil `p` and `c` and every error `unrelated` that is not the node
`Wrap(p, c)` itself and equals neither `p`, nor `c`, nor anything within them,
`Is(Wrap(p, c), unrelated)` is false. -/
theorem is_unrelated_false (a : Addr) (p c unrelated : Err)
    (hn : ifaceEq (Wrap a (some p) (some c)) (some unrelated) = false)
    (hp : ∀ x ∈ p.within, x.same unrelated = false)
    (hc : ∀ x ∈ c.within, x.same unrelated = false) :
    Is (Wrap a (some p) (some c)) (some unrelated) = false := by
  simp only [Wrap, ifaceEq] at hn
  simp [Is, Wrap, stderrors.Is, stderrors.Is.walk, hn, stderrors.isWalk_eq_false unrelated p hp,
    stderrors.isWalk_eq_false unrelated c hc]

/-- C7, amended, on the values of the test `TestIs`. -/
theorem is_unrelated_false_witness :
    Is (Wrap 100 (some newError) (some causeError)) (some otherError) = false :=
  is_unrelated_false 100 newError causeError otherError (by decide) (by decide) (by decide)

/-- C8, as stated, fails: the primary of a chain of one node is not found when its dynamic
type is not comparable. -/
theorem is_chain_member_fails_uncomparable :
    sliceError ∈ chainMembers (.wrappedError 100 none sliceError) ∧
    New 100 (some sliceError) = some (.wrappedError 100 none sliceError) ∧
    Is (New 100 (some sliceError)) (some sliceError) = false := by
  refine ⟨by simp [chainMembers], rfl, by decide⟩

/-- C8, amended: for every chain and every error `e` of comparable dynamic type that is the
primary of a node of the chain or its terminal cause, `Is(chain, e)` is true; and on the chain
of the example program `Is` finds `grandparentError`, `parentError` and `childError`. -/
theorem is_chain_member (chain e : Err) (a b c : Addr) (he : e ∈ chainMembers chain)
    (hc : e.dynType.Comparable = true) :
    Is (some chain) (some e) = true ∧
    Is (generateChildError a b c) (some grandparentError) = true ∧
    Is (generateChildError a b c) (some parentError) = true ∧
    Is (generateChildError a b c) (some childError) = true :=
  ⟨stderrors.isWalk_of_mem_chain chain e he hc, rfl, rfl, rfl⟩

/-- C8, amended, on the grandparent of the chain of the example program. -/
theorem is_chain_member_witness :
    Is (some (.wrappedError 102 (some (.wrappedError 101
        (some (.withMessage 100 none grandparentError "top-most error")) parentError))
        childError)) (some grandparentError) = true :=
  (is_chain_member _ grandparentError 100 101 102 (by simp [chainMembers]) (by decide)).1

/-! ## As: the loop of `errors.As` against the methods of the source -/

/-- On a plain error one round of the loop of `errors.As` is the assignability test alone. -/
theorem stderrors.asWalk_plain (acc : DynType → Bool) (ty : Nat) (c : Bool) (val : Nat)
    (text : String) (slot : error) :
    stderrors.As.walk acc (.plain ty c val text) slot =
      if acc (.user ty c) then (true, some (.plain ty c val text)) else (false, slot) := rfl

/-- One round of the loop of `errors.As` on a `*wrappedError`, with the cause not yet
inspected. -/
theorem stderrors.asWalk_wrappedError (acc : DynType → Bool) (a : Addr) (cause : error)
    (err : Err) (slot : error) :
    stderrors.As.walk acc (.wrappedError a cause err) slot =
      if acc .ptrWrappedError then (true, some (.wrappedError a cause err))
      else
        let r := stderrors.As.walk acc err slot
        if r.1 then r
        else
          let r := match cause with
            | none => (false, r.2)
            | some c => stderrors.As.walk acc c r.2
          if r.1 then r
          else match cause with
            | none => (false, r.2)
            | some c => stderrors.As.walk acc c r.2 := by
  cases cause <;> rfl

/-- One round of the loop of `errors.As` on a `*withMessage`, with the cause not yet
inspected. -/
theorem stderrors.asWalk_withMessage (acc : DynType → Bool) (a : Addr) (cause : error)
    (err : Err) (msg : String) (slot : error) :
    stderrors.As.walk acc (.withMessage a cause err msg) slot =
      if acc .ptrWithMessage then (true, some (.withMessage a cause err msg))
      else
        let r := stderrors.As.walk acc err slot
        if r.1 then r
        else
          let r := match cause with
            | none => (false, r.2)
            | some c => stderrors.As.walk acc c r.2
          if r.1 then r
          else match cause with
            | none => (false, r.2)
            | some c => stderrors.As.walk acc c r.2 := by
  cases cause <;> rfl

/-- On a `*wrappedError` and a well-formed target, `errors.As` is the assignability test, then
the method `(*wrappedError).As` of the source, then `errors.As` on what `Unwrap` returns. -/
theorem stderrors.As_wrappedError (acc : DynType → Bool) (a : Addr) (cause : error) (err : Err)
    (slot : error) :
    stderrors.As (some (.wrappedError a cause err)) (.slot acc) slot =
      if acc .ptrWrappedError then .ok (true, some (.wrappedError a cause err))
      else match wrappedError.As cause err (.slot acc) slot with
        | .ok (false, s) => stderrors.As (stderrors.Unwrap (some (.wrappedError a cause err)))
            (.slot acc) s
        | r => r := by
  by_cases h : acc .ptrWrappedError = true
  · simp [stderrors.As, stderrors.asWalk_wrappedError, h]
  · simp only [stderrors.As, stderrors.asWalk_wrappedError, h, wrappedError.As,
      stderrors.Unwrap, wrappedError.Unwrap]
    generalize stderrors.As.walk acc err slot = r
    rcases r with ⟨_ | _, s⟩
    · cases cause with
      | none => simp
      | some c =>
        simp only [Bool.false_eq_true, if_false]
        generalize stderrors.As.walk acc c s = r2
        rcases r2 with ⟨_ | _, s2⟩ <;> simp
    · simp

/-- On a `*withMessage` and a well-formed target, `errors.As` is the assignability test, then
the promoted method `(*wrappedError).As`, then `errors.As` on what `Unwrap` returns. -/
theorem stderrors.As_withMessage (acc : DynType → Bool) (a : Addr) (cause : error) (err : Err)
    (msg : String) (slot : error) :
    stderrors.As (some (.withMessage a cause err msg)) (.slot acc) slot =
      if acc .ptrWithMessage then .ok (true, some (.withMessage a cause err msg))
      else match wrappedError.As cause err (.slot acc) slot with
        | .ok (false, s) =>
          stderrors.As (stderrors.Unwrap (some (.withMessage a cause err msg))) (.slot acc) s
        | r => r := by
  by_cases h : acc .ptrWithMessage = true
  · simp [stderrors.As, stderrors.asWalk_withMessage, h]
  · simp only [stderrors.As, stderrors.asWalk_withMessage, h, wrappedError.As,
      stderrors.Unwrap, wrappedError.Unwrap]
    generalize stderrors.As.walk acc err slot = r
    rcases r with ⟨_ | _, s⟩
    · cases cause with
      | none => simp
      | some c =>
        simp only [Bool.false_eq_true, if_false]
        generalize stderrors.As.walk acc c s = r2
        rcases r2 with ⟨_ | _, s2⟩ <;> simp
    · simp

/-- The loop of `errors.As` stores an error whose dynamic type is assignable at once. -/
theorem stderrors.asWalk_of_assignable (acc : DynType → Bool) (e : Err) (slot : error)
    (h : acc e.dynType = true) : stderrors.As.walk acc e slot = (true, some e) := by
  cases e with
  | plain ty c val text =>
    rw [stderrors.asWalk_plain]
    simp only [Err.dynType] at h
    simp [h]
  | wrappedError a cause err =>
    rw [stderrors.asWalk_wrappedError]
    simp only [Err.dynType] at h
    simp [h]
  | withMessage a cause err msg =>
    rw [stderrors.asWalk_withMessage]
    simp only [Err.dynType] at h
    simp [h]

/-- The loop of `errors.As` answers false and leaves the slot as it was when no dynamic type
within `e` is assignable. -/
theorem stderrors.asWalk_eq_false (acc : DynType → Bool) :
    ∀ (e : Err) (slot : error), (∀ x ∈ e.within, acc x.dynType = false) →
      stderrors.As.walk acc e slot = (false, slot) := by
  intro e
  induction e using Err.induct with
  | plain ty c val text =>
    intro slot h
    have h1 := h _ (Err.mem_within_self _)
    simp only [Err.dynType] at h1
    simp [stderrors.asWalk_plain, h1]
  | wrapped a cause err ihe ihc =>
    intro slot h
    have h1 := h _ (Err.mem_within_self _)
    simp only [Err.dynType] at h1
    have h2 := ihe slot (fun x hx => h x (by
      rcases cause with _ | c <;> simp [Err.within, hx]))
    cases cause with
    | none => simp [stderrors.asWalk_wrappedError, h1, h2]
    | some c =>
      have h3 := ihc c rfl slot (fun x hx => h x (by simp [Err.within, hx]))
      simp [stderrors.asWalk_wrappedError, h1, h2, h3]
  | message a cause err msg ihe ihc =>
    intro slot h
    have h1 := h _ (Err.mem_within_self _)
    simp only [Err.dynType] at h1
    have h2 := ihe slot (fun x hx => h x (by
      rcases cause with _ | c <;> simp [Err.within, hx]))
    cases cause with
    | none => simp [stderrors.asWalk_withMessage, h1, h2]
    | some c =>
      have h3 := ihc c rfl slot (fun x hx => h x (by simp [Err.within, hx]))
      simp [stderrors.asWalk_withMessage, h1, h2, h3]

/-- C9, as stated, fails: a slot of the interface type `error` matches the dynamic type of
`p`, yet `errors.As` tests the node itself first, so the slot holds the node and not `p`. -/
theorem as_primary_fails_on_error_slot :
    errorSlot newError.dynType = true ∧
    As (Wrap 100 (some newError) (some otherError)) (.slot errorSlot) none =
      .ok (true, some (.wrappedError 100 (some otherError) newError)) ∧
    some (Err.wrappedError 100 (some otherError) newError) ≠ some newError := by
  refine ⟨rfl, rfl, by simp [newError]⟩

/-- C9, amended: for every node `Wrap(p, c)` and every target slot whose type matches the
dynamic type of `p` and does not match the dynamic type `*wrappedError` of the node itself,
`As(Wrap(p, c), slot)` returns true and the slot holds `p` afterwards, whatever `c` is. -/
theorem as_primary (a : Addr) (p : Err) (c : error) (acc : DynType → Bool) (slot : error)
    (hp : acc p.dynType = true) (hn : acc .ptrWrappedError = false) :
    As (Wrap a (some p) c) (.slot acc) slot = .ok (true, some p) := by
  simp [As, Wrap, stderrors.As, stderrors.asWalk_wrappedError, hn,
    stderrors.asWalk_of_assignable acc p slot hp]

/-- C9, amended, on the first case of the test `TestAs`. -/
theorem as_primary_witness :
    As (Wrap 100 (some newError) (some otherError)) (.slot testErrorSlot) none =
      .ok (true, some newError) :=
  as_primary 100 newError (some otherError) testErrorSlot none (by decide) (by decide)

/-- C10, as stated, fails: a slot of the interface type `interface{ Unwrap() error }` matches
the dynamic type of the cause `New(causeError)` and nothing within the plain primary, yet the
node itself matches first, so the slot holds the node and not the cause. -/
theorem as_cause_fails_on_unwrapper_slot :
    New 50 (some causeError) = some (.wrappedError 50 none causeError) ∧
    unwrapperSlot (Err.wrappedError 50 none causeError).dynType = true ∧
    (∀ x ∈ newError.within, unwrapperSlot x.dynType = false) ∧
    As (Wrap 100 (some newError) (New 50 (some causeError))) (.slot unwrapperSlot) none =
      .ok (true, some (.wrappedError 100 (some (.wrappedError 50 none causeError)) newError)) ∧
    some (Err.wrappedError 100 (some (.wrappedError 50 none causeError)) newError) ≠
      New 50 (some causeError) := by
  refine ⟨rfl, rfl, by decide, rfl, by simp [New, Wrap]⟩

/-- C10, amended: for every node `Wrap(p, c)` with non-nil `c` and every target slot whose
type matches the dynamic type of `c`, matches nothing within `p` and does not match the
dynamic type `*wrappedError` of the node itself, `As(Wrap(p, c), slot)` returns true and the
slot holds `c` afterwards. -/
theorem as_cause (a : Addr) (p c : Err) (acc : DynType → Bool) (slot : error)
    (hc : acc c.dynType = true) (hp : ∀ x ∈ p.within, acc x.dynType = false)
    (hn : acc .ptrWrappedError = false) :
    As (Wrap a (some p) (some c)) (.slot acc) slot = .ok (true, some c) := by
  simp [As, Wrap, stderrors.As, stderrors.asWalk_wrappedError, hn,
    stderrors.asWalk_eq_false acc p slot hp, stderrors.asWalk_of_assignable acc c slot hc]

/-- C10, amended, on the second case of the test `TestAs`. -/
theorem as_cause_witness :
    As (Wrap 100 (some otherError) (some causeError)) (.slot testErrorSlot) none =
      .ok (true, some causeError) :=
  as_cause 100 otherError causeError testErrorSlot none (by decide) (by decide) (by decide)

/-! ## As: frame -/

/-- The loop of `errors.As` writes to the slot only when it answers true. -/
theorem stderrors.asWalk_frame (acc : DynType → Bool) :
    ∀ (e : Err) (slot : error), (stderrors.As.walk acc e slot).1 = false →
      (stderrors.As.walk acc e slot).2 = slot := by
  intro e
  induction e using Err.induct with
  | plain ty c val text =>
    intro slot h
    rw [stderrors.asWalk_plain] at h ⊢
    split at h <;> simp_all
  | wrapped a cause err ihe ihc =>
    intro slot h
    rw [stderrors.asWalk_wrappedError] at h ⊢
    by_cases hs : acc .ptrWrappedError = true
    · simp [hs] at h
    · simp only [hs, if_false, Bool.false_eq_true] at h ⊢
      by_cases h1 : (stderrors.As.walk acc err slot).1 = true
      · simp [h1] at h
      · have e1 := ihe slot (by simpa using h1)
        simp only [h1, if_false, e1] at h ⊢
        cases cause with
        | none => simp
        | some c =>
          simp only at h ⊢
          by_cases h2 : (stderrors.As.walk acc c slot).1 = true
          · simp [h2] at h
          · have e2 := ihc c rfl slot (by simpa using h2)
            simp only [h2, if_false, e2] at h ⊢
            exact e2
  | message a cause err msg ihe ihc =>
    intro slot h
    rw [stderrors.asWalk_withMessage] at h ⊢
    by_cases hs : acc .ptrWithMessage = true
    · simp [hs] at h
    · simp only [hs, if_false, Bool.false_eq_true] at h ⊢
      by_cases h1 : (stderrors.As.walk acc err slot).1 = true
      · simp [h1] at h
      · have e1 := ihe slot (by simpa using h1)
        simp only [h1, if_false, e1] at h ⊢
        cases cause with
        | none => simp
        | some c =>
          simp only at h ⊢
          by_cases h2 : (stderrors.As.walk acc c slot).1 = true
          · simp [h2] at h
          · have e2 := ihc c rfl slot (by simpa using h2)
            simp only [h2, if_false, e2] at h ⊢
            exact e2

/-- C11: for every chain and every target slot whose type matches the dynamic type of no
error value within the chain (the nodes included), `As(chain, slot)` returns false and the
content of the slot after the call is its content before the call; and on every chain, a call
of `As` that returns false leaves the slot as it was. -/
theorem as_no_match_leaves_slot (chain : Err) (acc : DynType → Bool) (slot : error)
    (h : ∀ x ∈ chain.within, acc x.dynType = false) :
    As (some chain) (.slot acc) slot = .ok (false, slot) ∧
    ∀ (e : Err) (after : error), As (some e) (.slot acc) slot = .ok (false, after) →
      after = slot := by
  refine ⟨?_, ?_⟩
  · simp [As, stderrors.As, stderrors.asWalk_eq_false acc chain slot h]
  · intro e after he
    simp only [As, stderrors.As, Except.ok.injEq] at he
    have := stderrors.asWalk_frame acc e slot (by rw [he])
    rw [he] at this
    exact this

/-- C11 on the last case of the test `TestAs`. -/
theorem as_no_match_leaves_slot_witness :
    As (Wrap 100 (some newError) (some causeError)) (.slot missingErrorSlot) none =
      .ok (false, none) :=
  (as_no_match_leaves_slot (.wrappedError 100 (some causeError) newError) missingErrorSlot none
    (by decide)).1

/-! ## Faults -/

/-- C12, as stated, fails: `As`, the free function and the method of a node alike, called with
a nil target or with a target that is no pointer panics in `errors.As`. -/
theorem as_faults_on_malformed_target :
    As (Wrap 100 (some newError) (some causeError)) .untypedNil none = .error .targetNil ∧
    As (Wrap 100 (some newError) (some causeError)) .notPointer none =
      .error .targetNotNonNilPointer ∧
    wrappedError.As (some causeError) newError .untypedNil none = .error .targetNil ∧
    wrappedError.As (some causeError) newError .notPointer none =
      .error .targetNotNonNilPointer := by
  refine ⟨rfl, rfl, rfl, rfl⟩

/-- C12, amended: `As`, the free function and the method of a node, returns a boolean without
a fault on every error and every well-formed target (a non-nil pointer to a slot of an
interface type or of a type implementing `error`), and faults exactly on the malformed ones;
`Error` of every node built by a constructor returns a text; `Is` with a nil target returns
`err == nil`, and false from the method of a node with a cause.  The constructors, `Unwrap`
and `Is` are total functions without a fault value. -/
theorem operations_fault_free (a : Addr) (p : Err) (err cause : error) (m : String)
    (acc : DynType → Bool) (target : AsTarget) (slot : error) :
    (∃ r, As err (.slot acc) slot = .ok r) ∧
    (∃ r, wrappedError.As cause p (.slot acc) slot = .ok r) ∧
    ((∃ r, As err target slot = .ok r) ↔ ∃ assignable, target = .slot assignable) ∧
    ((∃ r, wrappedError.As cause p target slot = .ok r) ↔
      ∃ assignable, target = .slot assignable) ∧
    (∃ s, (Wrap a (some p) cause).Error = some s) ∧
    (∃ s, (WrapWithMessage a (some p) cause m).Error = some s) ∧
    Is err none = ifaceEq err none ∧
    wrappedError.Is cause p none = ifaceEq cause none := by
  have h1 : ∀ (e : error) (s : error), ∃ r, stderrors.As e (.slot acc) s = .ok r := by
    intro e s
    cases e <;> exact ⟨_, rfl⟩
  have h2 : ∃ r, wrappedError.As cause p (.slot acc) slot = .ok r := by
    simp only [wrappedError.As, stderrors.As]
    generalize stderrors.As.walk acc p slot = r
    rcases r with ⟨_ | _, s⟩
    · exact h1 cause s
    · exact ⟨_, rfl⟩
  refine ⟨h1 err slot, h2, ?_, ?_, ⟨_, rfl⟩, ⟨_, rfl⟩, rfl, ?_⟩
  · constructor
    · rintro ⟨r, hr⟩
      cases target with
      | slot assignable => exact ⟨assignable, rfl⟩
      | _ => simp [As, stderrors.As] at hr
    · rintro ⟨assignable, rfl⟩
      cases err <;> exact ⟨_, rfl⟩
  · constructor
    · rintro ⟨r, hr⟩
      cases target with
      | slot assignable => exact ⟨assignable, rfl⟩
      | _ => simp [wrappedError.As, stderrors.As] at hr
    · rintro ⟨assignable, rfl⟩
      simp only [wrappedError.As, stderrors.As]
      generalize stderrors.As.walk assignable p slot = r
      rcases r with ⟨_ | _, s⟩
      · cases cause <;> exact ⟨_, rfl⟩
      · exact ⟨_, rfl⟩
  · simp [wrappedError.Is, stderrors.Is, ifaceEq]

/-! ## The constructors without a cause -/

/-- C13: `New(p)` builds the node of `Wrap(p, nil)` and `NewWithMessage(p, m)` the node of
`WrapWithMessage(p, nil, m)`: the same primary, a nil cause, the same message, hence the same
results of `Error`, `Unwrap`, `Is` and `As`; both are nil when `p` is nil. -/
theorem new_is_wrap_without_cause (a : Addr) (p : error) (m : String) (target : error)
    (tgt : AsTarget) (slot : error) :
    New a p = Wrap a p none ∧
    NewWithMessage a p m = WrapWithMessage a p none m ∧
    (∀ e, p = some e → New a p = some (.wrappedError a none e) ∧
      NewWithMessage a p m = some (.withMessage a none e m)) ∧
    (p = none → New a p = none ∧ Wrap a p none = none ∧
      NewWithMessage a p m = none ∧ WrapWithMessage a p none m = none) ∧
    (New a p).Error = (Wrap a p none).Error ∧
    (NewWithMessage a p m).Error = (WrapWithMessage a p none m).Error ∧
    Unwrap (New a p) = Unwrap (Wrap a p none) ∧
    Unwrap (NewWithMessage a p m) = Unwrap (WrapWithMessage a p none m) ∧
    Is (New a p) target = Is (Wrap a p none) target ∧
    Is (NewWithMessage a p m) target = Is (WrapWithMessage a p none m) target ∧
    As (New a p) tgt slot = As (Wrap a p none) tgt slot ∧
    As (NewWithMessage a p m) tgt slot = As (WrapWithMessage a p none m) tgt slot := by
  refine ⟨rfl, rfl, ?_, ?_, rfl, rfl, rfl, rfl, rfl, rfl, rfl, rfl⟩
  · rintro e rfl
    exact ⟨rfl, rfl⟩
  · rintro rfl
    exact ⟨rfl, rfl, rfl, rfl⟩

/-- C14: for non-nil `p`, every cause `c` and every message `m`,
`WrapWithMessage(p, c, m).Error()` is `m + ": " + Wrap(p, c).Error()`. -/
theorem message_error_is_message_then_wrap_error (a b : Addr) (p : Err) (c : error)
    (m : String) :
    (WrapWithMessage a (some p) c m).Error =
      (Wrap b (some p) c).Error.map (fun s => m ++ ": " ++ s) := by
  cases c <;>
    simp [WrapWithMessage, Wrap, error.Error, Err.Error, String.append_assoc]

/-! ## The message and the traversal -/

/-- C15, as stated, fails on `As`: with a slot of the interface type `error` each of the two
nodes matches itself, so the slot holds the message-bearing node after the one call and the
message-less node after the other. -/
theorem as_with_message_differs_on_error_slot :
    As (WrapWithMessage 100 (some newError) (some causeError) "context") (.slot errorSlot) none =
      .ok (true, some (.withMessage 100 (some causeError) newError "context")) ∧
    As (Wrap 101 (some newError) (some causeError)) (.slot errorSlot) none =
      .ok (true, some (.wrappedError 101 (some causeError) newError)) ∧
    some (Err.withMessage 100 (some causeError) newError "context") ≠
      some (Err.wrappedError 101 (some causeError) newError) ∧
    (Err.withMessage 100 (some causeError) newError "context").Error ≠
      (Err.wrappedError 101 (some causeError) newError).Error := by
  refine ⟨rfl, rfl, by simp, by decide⟩

/-- C15, amended: for non-nil `p`, every cause `c`, every message `m`, every target `t` that
is neither of the two nodes themselves, and every target slot whose type matches the dynamic
type of neither node, `Unwrap`, `Is` and `As` give the same on `WrapWithMessage(p, c, m)` and
on `Wrap(p, c)`: the same cause, the same boolean, the same boolean and slot content. -/
theorem message_does_not_influence_traversal (a b : Addr) (p : Err) (c : error) (m : String)
    (t : error) (acc : DynType → Bool) (slot : error)
    (ht1 : ifaceEq (WrapWithMessage a (some p) c m) t = false)
    (ht2 : ifaceEq (Wrap b (some p) c) t = false)
    (hn1 : acc .ptrWithMessage = false) (hn2 : acc .ptrWrappedError = false) :
    Unwrap (WrapWithMessage a (some p) c m) = Unwrap (Wrap b (some p) c) ∧
    Is (WrapWithMessage a (some p) c m) t = Is (Wrap b (some p) c) t ∧
    As (WrapWithMessage a (some p) c m) (.slot acc) slot =
      As (Wrap b (some p) c) (.slot acc) slot := by
  refine ⟨rfl, ?_, ?_⟩
  · cases t with
    | none => rfl
    | some u =>
      simp only [WrapWithMessage, Wrap, ifaceEq] at ht1 ht2
      simp [Is, WrapWithMessage, Wrap, stderrors.Is, stderrors.isWalk_withMessage,
        stderrors.isWalk_wrappedError, ht1, ht2]
  · simp [As, WrapWithMessage, Wrap, stderrors.As, stderrors.asWalk_withMessage,
      stderrors.asWalk_wrappedError, hn1, hn2]

/-- C15, amended, on the values of the tests with the slot type `*testError`. -/
theorem message_does_not_influence_traversal_witness :
    Unwrap (WrapWithMessage 100 (some newError) (some causeError) "context") =
      Unwrap (Wrap 101 (some newError) (some causeError)) ∧
    Is (WrapWithMessage 100 (some newError) (some causeError) "context") (some causeError) =
      Is (Wrap 101 (some newError) (some causeError)) (some causeError) ∧
    As (WrapWithMessage 100 (some newError) (some causeError) "context")
        (.slot testErrorSlot) none =
      As (Wrap 101 (some newError) (some causeError)) (.slot testErrorSlot) none :=
  message_does_not_influence_traversal 100 101 newError (some causeError) "context"
    (some causeError) testErrorSlot none (by decide) (by decide) (by decide) (by decide)

/-! ## Is: the walker and the method of a node -/

/-- C17: for every node with primary `p` and cause `c` and every non-nil target `t`, the free
function `Is(node, t)` is `(node == t) || Is(p, t) || Is(c, t)`. -/
theorem is_node_unfolds (a : Addr) (p : Err) (c : error) (m : String) (t : Err) :
    Is (Wrap a (some p) c) (some t) =
      (ifaceEq (Wrap a (some p) c) (some t) || Is (some p) (some t) || Is c (some t)) ∧
    Is (WrapWithMessage a (some p) c m) (some t) =
      (ifaceEq (WrapWithMessage a (some p) c m) (some t) || Is (some p) (some t)
        || Is c (some t)) := by
  constructor
  · simp only [Is, Wrap, stderrors.Is, stderrors.isWalk_wrappedError, wrappedError.Is, ifaceEq]
    cases hs : (Err.wrappedError a c p).same t with
    | false => cases stderrors.Is.walk t p <;> simp [stderrors.Is]
    | true =>
      have : t.dynType.Comparable = true := by
        simp only [Err.same, Bool.and_eq_true, decide_eq_true_eq] at hs
        rw [← hs.1]
        rfl
      simp [this]
  · simp only [Is, WrapWithMessage, stderrors.Is, stderrors.isWalk_withMessage, wrappedError.Is,
      ifaceEq]
    cases hs : (Err.withMessage a c p m).same t with
    | false => cases stderrors.Is.walk t p <;> simp [stderrors.Is]
    | true =>
      have : t.dynType.Comparable = true := by
        simp only [Err.same, Bool.and_eq_true, decide_eq_true_eq] at hs
        rw [← hs.1]
        rfl
      simp [this]

/-- C19: with a nil target the method `Is` of a node returns true exactly when the cause of
the node is nil, whereas the free function `Is(node, nil)` is false for every node. -/
theorem is_nil_target (a : Addr) (p : Err) (c : error) (m : String) :
    (wrappedError.Is c p none = true ↔ c = none) ∧
    Is (Wrap a (some p) c) none = false ∧
    Is (WrapWithMessage a (some p) c m) none = false := by
  refine ⟨?_, rfl, rfl⟩
  cases c <;> simp [wrappedError.Is, stderrors.Is, ifaceEq]

/-! ## The work of the walkers on a chain that matches nothing -/

/-- Unfolding of the step count of `errors.Is` on a `*wrappedError` with a cause. -/
theorem stderrors.isSteps_wrappedError (t : Err) (a : Addr) (c err : Err) :
    stderrors.Is.steps t (.wrappedError a (some c) err) =
      if t.dynType.Comparable && (Err.wrappedError a (some c) err).same t then 1
      else 2 + stderrors.Is.steps t err +
        if stderrors.Is.walk t err then 0
        else stderrors.Is.steps t c +
          if stderrors.Is.walk t c then 0 else stderrors.Is.steps t c := rfl

/-- Unfolding of the step count of `errors.As` on a `*wrappedError` with a cause. -/
theorem stderrors.asSteps_wrappedError (acc : DynType → Bool) (a : Addr) (c err : Err)
    (slot : error) :
    stderrors.As.steps acc (.wrappedError a (some c) err) slot =
      if acc .ptrWrappedError then 1
      else 2 + stderrors.As.steps acc err slot +
        if (stderrors.As.walk acc err slot).1 then 0
        else stderrors.As.steps acc c (stderrors.As.walk acc err slot).2 +
          if (stderrors.As.walk acc c (stderrors.As.walk acc err slot).2).1 then 0
          else stderrors.As.steps acc c
            (stderrors.As.walk acc c (stderrors.As.walk acc err slot).2).2 := rfl

/-- Nothing in the chain `wrapChain n` equals `otherError`. -/
theorem wrapChain_walk_other (n : Nat) : stderrors.Is.walk otherError (wrapChain n) = false := by
  induction n with
  | zero => decide
  | succ n ih =>
    have h : stderrors.Is.walk otherError newError = false := by decide
    have h2 : (Err.wrappedError (100 + n) (some (wrapChain n)) newError).same otherError =
        false := rfl
    simp [wrapChain, stderrors.isWalk_wrappedError, wrappedError.Is, stderrors.Is, ih, h, h2]

/-- Nothing in the chain `wrapChain n` is assignable to a slot of type `*missingError`. -/
theorem wrapChain_walk_missing (n : Nat) (slot : error) :
    stderrors.As.walk missingErrorSlot (wrapChain n) slot = (false, slot) := by
  induction n generalizing slot with
  | zero => rfl
  | succ n ih =>
    have h : ∀ s, stderrors.As.walk missingErrorSlot newError s = (false, s) := fun _ => rfl
    simp [wrapChain, stderrors.asWalk_wrappedError, ih, h, missingErrorSlot]

/-- The step count of `errors.Is` doubles with every nested node when nothing matches. -/
theorem wrapChain_is_steps (n : Nat) :
    stderrors.Is.steps otherError (wrapChain n) + 3 = 2 ^ (n + 2) := by
  induction n with
  | zero => decide
  | succ n ih =>
    have h : stderrors.Is.walk otherError newError = false := by decide
    have h1 : stderrors.Is.steps otherError newError = 1 := rfl
    have h2 : (otherError.dynType.Comparable &&
        (Err.wrappedError (100 + n) (some (wrapChain n)) newError).same otherError) = false :=
      rfl
    rw [wrapChain, stderrors.isSteps_wrappedError, h2]
    simp only [h, h1, wrapChain_walk_other, Bool.false_eq_true, if_false]
    rw [pow_succ]
    omega

/-- The step count of `errors.As` doubles with every nested node when nothing matches. -/
theorem wrapChain_as_steps (n : Nat) (slot : error) :
    stderrors.As.steps missingErrorSlot (wrapChain n) slot + 3 = 2 ^ (n + 2) := by
  induction n generalizing slot with
  | zero => rfl
  | succ n ih =>
    have h : ∀ s, stderrors.As.walk missingErrorSlot newError s = (false, s) := fun _ => rfl
    have h1 : ∀ s, stderrors.As.steps missingErrorSlot newError s = 1 := fun _ => rfl
    have h2 : missingErrorSlot .ptrWrappedError = false := rfl
    rw [wrapChain, stderrors.asSteps_wrappedError, h2]
    simp only [h, h1, wrapChain_walk_missing, Bool.false_eq_true, if_false]
    have := ih slot
    rw [pow_succ]
    omega

/-- The calls of `Error` on the chain `wrapChain n`: one per node and per plain error. -/
theorem wrapChain_errorCalls (n : Nat) : (wrapChain n).errorCalls = 2 * n + 1 := by
  induction n with
  | zero => rfl
  | succ n ih =>
    simp only [wrapChain, Err.errorCalls, ih]
    have : newError.errorCalls = 1 := rfl
    omega

/-- No linear function bounds a power of two. -/
theorem linear_lt_two_pow (a b : Nat) : ∃ n, a * n + b + 3 < 2 ^ (n + 2) := by
  refine ⟨2 * (a + b + 3), ?_⟩
  have h : a + b + 3 < 2 ^ (a + b + 3) := Nat.lt_two_pow _
  have h2 : 2 ^ (2 * (a + b + 3) + 2) = 4 * (2 ^ (a + b + 3) * 2 ^ (a + b + 3)) := by
    rw [pow_add, two_mul, pow_add]
    ring
  rw [h2]
  nlinarith [h, Nat.zero_le a, Nat.zero_le b]

/-- C16, refuted on the code: on the chain of `n` nested nodes
`Wrap(newError, Wrap(newError, ... causeError))` and a target that matches nothing, `Is` and
`As` return false after `2 ^ (n + 2) - 3` loop rounds and method calls, which no linear
function of `n` bounds (4093 for `n = 10`); `Error` makes `2 * n + 1` calls. -/
theorem walk_steps_exponential :
    (∀ n, some (wrapChain (n + 1)) = Wrap (100 + n) (some newError) (some (wrapChain n))) ∧
    (∀ n, Is (some (wrapChain n)) (some otherError) = false ∧
      stderrors.Is.steps otherError (wrapChain n) + 3 = 2 ^ (n + 2)) ∧
    (∀ n slot, As (some (wrapChain n)) (.slot missingErrorSlot) slot = .ok (false, slot) ∧
      stderrors.As.steps missingErrorSlot (wrapChain n) slot + 3 = 2 ^ (n + 2)) ∧
    (∀ a b, ∃ n, a * n + b < stderrors.Is.steps otherError (wrapChain n)) ∧
    (∀ a b slot, ∃ n, a * n + b < stderrors.As.steps missingErrorSlot (wrapChain n) slot) ∧
    stderrors.Is.steps otherError (wrapChain 10) = 4093 ∧
    (∀ n, (wrapChain n).errorCalls = 2 * n + 1) := by
  refine ⟨fun _ => rfl, fun n => ⟨wrapChain_walk_other n, wrapChain_is_steps n⟩,
    fun n slot => ⟨?_, wrapChain_as_steps n slot⟩, ?_, ?_, ?_, wrapChain_errorCalls⟩
  · simp [As, stderrors.As, wrapChain_walk_missing]
  · intro a b
    obtain ⟨n, hn⟩ := linear_lt_two_pow a b
    have := wrapChain_is_steps n
    exact ⟨n, by omega⟩
  · intro a b slot
    obtain ⟨n, hn⟩ := linear_lt_two_pow a b
    have := wrapChain_as_steps n slot
    exact ⟨n, by omega⟩
  · have := wrapChain_is_steps 10
    norm_num at this
    omega

/-! ## The mutual recursion of the source returns -/

/-- One unit of fuel takes `errors.Is` with a non-nil target into its loop. -/
theorem stderrors.isFuel_succ (n : Nat) (err : error) (t : Err) :
    stderrors.IsFuel (n + 1) err (some t) = stderrors.IsLoopFuel n err t := rfl

/-- One unit of fuel takes `(*wrappedError).Is` to its two calls of `errors.Is`. -/
theorem wrappedError.methodIsFuel_succ (n : Nat) (cause : error) (err : Err) (target : error) :
    wrappedError.IsFuel (n + 1) cause err target =
      match stderrors.IsFuel n (some err) target with
      | none => none
      | some true => some true
      | some false => stderrors.IsFuel n cause target := rfl

/-- A round of the loop of `errors.Is` on a nil error answers false. -/
theorem stderrors.isLoopFuel_nil (n : Nat) (t : Err) :
    stderrors.IsLoopFuel (n + 1) none t = some false := by
  simp [stderrors.IsLoopFuel, ifaceEq, stderrors.Unwrap]

/-- A round of the loop of `errors.Is` on a plain error is the comparison. -/
theorem stderrors.isLoopFuel_plain (n : Nat) (t : Err) (ty : Nat) (c : Bool) (val : Nat)
    (text : String) :
    stderrors.IsLoopFuel (n + 1) (some (.plain ty c val text)) t =
      some (t.dynType.Comparable && (Err.plain ty c val text).same t) := by
  simp only [stderrors.IsLoopFuel, ifaceEq, stderrors.Unwrap]
  split <;> simp_all

/-- A round of the loop of `errors.Is` on a `*wrappedError`: the comparison, the method, the
next round on the cause. -/
theorem stderrors.isLoopFuel_wrappedError (n : Nat) (t : Err) (a : Addr) (cause : error)
    (err : Err) :
    stderrors.IsLoopFuel (n + 1) (some (.wrappedError a cause err)) t =
      if t.dynType.Comparable && (Err.wrappedError a cause err).same t then some true
      else
        match wrappedError.IsFuel n cause err (some t) with
        | none => none
        | some true => some true
        | some false =>
          match cause with
          | none => some false
          | some u => stderrors.IsLoopFuel n (some u) t := by
  cases cause <;> rfl

/-- A round of the loop of `errors.Is` on a `*withMessage`: the comparison, the promoted
method, the next round on the cause. -/
theorem stderrors.isLoopFuel_withMessage (n : Nat) (t : Err) (a : Addr) (cause : error)
    (err : Err) (msg : String) :
    stderrors.IsLoopFuel (n + 1) (some (.withMessage a cause err msg)) t =
      if t.dynType.Comparable && (Err.withMessage a cause err msg).same t then some true
      else
        match wrappedError.IsFuel n cause err (some t) with
        | none => none
        | some true => some true
        | some false =>
          match cause with
          | none => some false
          | some u => stderrors.IsLoopFuel n (some u) t := by
  cases cause <;> rfl

/-- The method with fuel, given the answers of the loop on `err` and on the cause. -/
theorem wrappedError.isFuel_of_loops (m : Nat) (t : Err) (cause : error) (err : Err)
    (h1 : stderrors.IsLoopFuel m (some err) t = some (stderrors.Is.walk t err))
    (h2 : ∀ c, cause = some c →
      stderrors.IsLoopFuel m (some c) t = some (stderrors.Is.walk t c)) :
    wrappedError.IsFuel (m + 2) cause err (some t) =
      some (wrappedError.Is cause err (some t)) := by
  obtain ⟨k, rfl⟩ : ∃ k, m = k + 1 := by
    cases m with
    | zero => simp [stderrors.IsLoopFuel] at h1
    | succ k => exact ⟨k, rfl⟩
  rw [wrappedError.methodIsFuel_succ, stderrors.isFuel_succ, h1]
  cases hw : stderrors.Is.walk t err with
  | true => simp [wrappedError.Is, stderrors.Is, hw]
  | false =>
    cases cause with
    | none => simp [wrappedError.Is, stderrors.Is, hw, stderrors.isFuel_succ,
        stderrors.isLoopFuel_nil, ifaceEq]
    | some c => simp [wrappedError.Is, stderrors.Is, hw, stderrors.isFuel_succ, h2 c rfl]

/-- With fuel of at least three times the depth, the loop of `errors.Is` with fuel returns
what the walk returns. -/
theorem stderrors.isLoopFuel_eq (t : Err) :
    ∀ (e : Err) (n : Nat), 3 * e.depth ≤ n →
      stderrors.IsLoopFuel n (some e) t = some (stderrors.Is.walk t e) := by
  intro e
  induction e using Err.induct with
  | plain ty c val text =>
    intro n hn
    simp only [Err.depth] at hn
    obtain ⟨m, rfl⟩ : ∃ m, n = m + 1 := ⟨n - 1, by omega⟩
    rw [stderrors.isLoopFuel_plain, stderrors.isWalk_plain]
  | wrapped a cause err ihe ihc =>
    intro n hn
    have hd : 3 * err.depth + 3 ≤ n ∧ ∀ c, cause = some c → 3 * c.depth + 3 ≤ n := by
      cases cause with
      | none => simp only [Err.depth] at hn; exact ⟨by omega, fun _ h => by cases h⟩
      | some c =>
        simp only [Err.depth] at hn
        exact ⟨by omega, fun _ h => by cases h; omega⟩
    obtain ⟨m, rfl⟩ : ∃ m, n = m + 3 := ⟨n - 3, by omega⟩
    have h1 := ihe m (by omega)
    have h2 : ∀ c, cause = some c →
        stderrors.IsLoopFuel m (some c) t = some (stderrors.Is.walk t c) :=
      fun c hc => ihc c hc m (by have := hd.2 c hc; omega)
    rw [stderrors.isLoopFuel_wrappedError, wrappedError.isFuel_of_loops m t cause err h1 h2,
      stderrors.isWalk_wrappedError]
    cases hs : (t.dynType.Comparable && (Err.wrappedError a cause err).same t) with
    | true => simp
    | false =>
      cases hm : wrappedError.Is cause err (some t) with
      | true => simp
      | false =>
        cases cause with
        | none => simp [stderrors.Is]
        | some c =>
          simp [stderrors.Is, ihc c rfl (m + 2) (by have := hd.2 c rfl; omega)]
  | message a cause err msg ihe ihc =>
    intro n hn
    have hd : 3 * err.depth + 3 ≤ n ∧ ∀ c, cause = some c → 3 * c.depth + 3 ≤ n := by
      cases cause with
      | none => simp only [Err.depth] at hn; exact ⟨by omega, fun _ h => by cases h⟩
      | some c =>
        simp only [Err.depth] at hn
        exact ⟨by omega, fun _ h => by cases h; omega⟩
    obtain ⟨m, rfl⟩ : ∃ m, n = m + 3 := ⟨n - 3, by omega⟩
    have h1 := ihe m (by omega)
    have h2 : ∀ c, cause = some c →
        stderrors.IsLoopFuel m (some c) t = some (stderrors.Is.walk t c) :=
      fun c hc => ihc c hc m (by have := hd.2 c hc; omega)
    rw [stderrors.isLoopFuel_withMessage, wrappedError.isFuel_of_loops m t cause err h1 h2,
      stderrors.isWalk_withMessage]
    cases hs : (t.dynType.Comparable && (Err.withMessage a cause err msg).same t) with
    | true => simp
    | false =>
      cases hm : wrappedError.Is cause err (some t) with
      | true => simp
      | false =>
        cases cause with
        | none => simp [stderrors.Is]
        | some c =>
          simp [stderrors.Is, ihc c rfl (m + 2) (by have := hd.2 c rfl; omega)]

/-- With enough fuel the mutual recursion of `errors.Is` returns what `stderrors.Is` does. -/
theorem stderrors.isFuel_eq (e : Err) (target : error) (n : Nat) (hn : 3 * e.depth + 1 ≤ n) :
    stderrors.IsFuel n (some e) target = some (stderrors.Is (some e) target) := by
  obtain ⟨m, rfl⟩ : ∃ m, n = m + 1 := ⟨n - 1, by omega⟩
  cases target with
  | none => rfl
  | some t =>
    rw [stderrors.isFuel_succ, stderrors.isLoopFuel_eq t e m (by omega)]
    rfl

/-- One unit of fuel takes `errors.As` with a well-formed target into its loop. -/
theorem stderrors.asFuel_succ (n : Nat) (err : error) (acc : DynType → Bool) (slot : error) :
    stderrors.AsFuel (n + 1) err (.slot acc) slot = stderrors.AsLoopFuel n err acc slot := rfl

/-- One unit of fuel takes `(*wrappedError).As` to its two calls of `errors.As`. -/
theorem wrappedError.methodAsFuel_succ (n : Nat) (cause : error) (err : Err) (target : AsTarget)
    (slot : error) :
    wrappedError.AsFuel (n + 1) cause err target slot =
      match stderrors.AsFuel n (some err) target slot with
      | none => none
      | some (.error f) => some (.error f)
      | some (.ok (true, s)) => some (.ok (true, s))
      | some (.ok (false, s)) => stderrors.AsFuel n cause target s := rfl

/-- The loop of `errors.As` on a nil error ends at once with false. -/
theorem stderrors.asLoopFuel_nil (n : Nat) (acc : DynType → Bool) (slot : error) :
    stderrors.AsLoopFuel (n + 1) none acc slot = some (.ok (false, slot)) := rfl

/-- Two rounds of the loop of `errors.As` settle a plain error. -/
theorem stderrors.asLoopFuel_plain (n : Nat) (acc : DynType → Bool) (ty : Nat) (c : Bool)
    (val : Nat) (text : String) (slot : error) :
    stderrors.AsLoopFuel (n + 2) (some (.plain ty c val text)) acc slot =
      some (.ok (stderrors.As.walk acc (.plain ty c val text) slot)) := by
  rw [stderrors.asWalk_plain]
  simp only [stderrors.AsLoopFuel, Err.dynType, stderrors.Unwrap]
  split <;> rfl

/-- A round of the loop of `errors.As` on a `*wrappedError`: the assignability test, the
method, the next round on the cause. -/
theorem stderrors.asLoopFuel_wrappedError (n : Nat) (acc : DynType → Bool) (a : Addr)
    (cause : error) (err : Err) (slot : error) :
    stderrors.AsLoopFuel (n + 1) (some (.wrappedError a cause err)) acc slot =
      if acc .ptrWrappedError then some (.ok (true, some (.wrappedError a cause err)))
      else
        match wrappedError.AsFuel n cause err (.slot acc) slot with
        | none => none
        | some (.error f) => some (.error f)
        | some (.ok (true, s)) => some (.ok (true, s))
        | some (.ok (false, s)) => stderrors.AsLoopFuel n cause acc s := by
  cases cause <;> rfl

/-- A round of the loop of `errors.As` on a `*withMessage`: the assignability test, the
promoted method, the next round on the cause. -/
theorem stderrors.asLoopFuel_withMessage (n : Nat) (acc : DynType → Bool) (a : Addr)
    (cause : error) (err : Err) (msg : String) (slot : error) :
    stderrors.AsLoopFuel (n + 1) (some (.withMessage a cause err msg)) acc slot =
      if acc .ptrWithMessage then some (.ok (true, some (.withMessage a cause err msg)))
      else
        match wrappedError.AsFuel n cause err (.slot acc) slot with
        | none => none
        | some (.error f) => some (.error f)
        | some (.ok (true, s)) => some (.ok (true, s))
        | some (.ok (false, s)) => stderrors.AsLoopFuel n cause acc s := by
  cases cause <;> rfl

/-- The method with fuel, given the answers of the loop on `err` and on the cause. -/
theorem wrappedError.asFuel_of_loops (m : Nat) (acc : DynType → Bool) (cause : error) (err : Err)
    (h1 : ∀ slot, stderrors.AsLoopFuel m (some err) acc slot =
      some (.ok (stderrors.As.walk acc err slot)))
    (h2 : ∀ c, cause = some c → ∀ slot,
      stderrors.AsLoopFuel m (some c) acc slot = some (.ok (stderrors.As.walk acc c slot)))
    (slot : error) :
    wrappedError.AsFuel (m + 2) cause err (.slot acc) slot =
      some (wrappedError.As cause err (.slot acc) slot) := by
  obtain ⟨k, rfl⟩ : ∃ k, m = k + 1 := by
    cases m with
    | zero => simpa [stderrors.AsLoopFuel] using h1 none
    | succ k => exact ⟨k, rfl⟩
  rw [wrappedError.methodAsFuel_succ, stderrors.asFuel_succ, h1]
  simp only [wrappedError.As, stderrors.As]
  generalize stderrors.As.walk acc err slot = r
  rcases r with ⟨_ | _, s⟩
  · cases cause with
    | none => simp [stderrors.asFuel_succ, stderrors.asLoopFuel_nil]
    | some c => simp [stderrors.asFuel_succ, h2 c rfl]
  · simp

/-- With fuel of at least three times the depth, the loop of `errors.As` with fuel returns
what the walk returns. -/
theorem stderrors.asLoopFuel_eq (acc : DynType → Bool) :
    ∀ (e : Err) (n : Nat), 3 * e.depth ≤ n → ∀ slot,
      stderrors.AsLoopFuel n (some e) acc slot = some (.ok (stderrors.As.walk acc e slot)) := by
  intro e
  induction e using Err.induct with
  | plain ty c val text =>
    intro n hn slot
    simp only [Err.depth] at hn
    obtain ⟨m, rfl⟩ : ∃ m, n = m + 2 := ⟨n - 2, by omega⟩
    rw [stderrors.asLoopFuel_plain]
  | wrapped a cause err ihe ihc =>
    intro n hn slot
    have hd : 3 * err.depth + 3 ≤ n ∧ ∀ c, cause = some c → 3 * c.depth + 3 ≤ n := by
      cases cause with
      | none => simp only [Err.depth] at hn; exact ⟨by omega, fun _ h => by cases h⟩
      | some c =>
        simp only [Err.depth] at hn
        exact ⟨by omega, fun _ h => by cases h; omega⟩
    obtain ⟨m, rfl⟩ : ∃ m, n = m + 3 := ⟨n - 3, by omega⟩
    have h1 := ihe m (by omega)
    have h2 : ∀ c, cause = some c → ∀ slot,
        stderrors.AsLoopFuel m (some c) acc slot = some (.ok (stderrors.As.walk acc c slot)) :=
      fun c hc => ihc c hc m (by have := hd.2 c hc; omega)
    have hw : Except.ok (stderrors.As.walk acc (.wrappedError a cause err) slot) =
        stderrors.As (some (.wrappedError a cause err)) (.slot acc) slot := rfl
    rw [stderrors.asLoopFuel_wrappedError, wrappedError.asFuel_of_loops m acc cause err h1 h2,
      hw, stderrors.As_wrappedError]
    by_cases hs : acc .ptrWrappedError = true
    · simp [hs]
    · simp only [hs, if_false, Bool.false_eq_true]
      generalize wrappedError.As cause err (.slot acc) slot = r
      rcases r with f | ⟨_ | _, s⟩
      · rfl
      · cases cause with
        | none => rfl
        | some c =>
          simp [stderrors.Unwrap, wrappedError.Unwrap, stderrors.As,
            ihc c rfl (m + 2) (by have := hd.2 c rfl; omega)]
      · rfl
  | message a cause err msg ihe ihc =>
    intro n hn slot
    have hd : 3 * err.depth + 3 ≤ n ∧ ∀ c, cause = some c → 3 * c.depth + 3 ≤ n := by
      cases cause with
      | none => simp only [Err.depth] at hn; exact ⟨by omega, fun _ h => by cases h⟩
      | some c =>
        simp only [Err.depth] at hn
        exact ⟨by omega, fun _ h => by cases h; omega⟩
    obtain ⟨m, rfl⟩ : ∃ m, n = m + 3 := ⟨n - 3, by omega⟩
    have h1 := ihe m (by omega)
    have h2 : ∀ c, cause = some c → ∀ slot,
        stderrors.AsLoopFuel m (some c) acc slot = some (.ok (stderrors.As.walk acc c slot)) :=
      fun c hc => ihc c hc m (by have := hd.2 c hc; omega)
    have hw : Except.ok (stderrors.As.walk acc (.withMessage a cause err msg) slot) =
        stderrors.As (some (.withMessage a cause err msg)) (.slot acc) slot := rfl
    rw [stderrors.asLoopFuel_withMessage, wrappedError.asFuel_of_loops m acc cause err h1 h2,
      hw, stderrors.As_withMessage]
    by_cases hs : acc .ptrWithMessage = true
    · simp [hs]
    · simp only [hs, if_false, Bool.false_eq_true]
      generalize wrappedError.As cause err (.slot acc) slot = r
      rcases r with f | ⟨_ | _, s⟩
      · rfl
      · cases cause with
        | none => rfl
        | some c =>
          simp [stderrors.Unwrap, wrappedError.Unwrap, stderrors.As,
            ihc c rfl (m + 2) (by have := hd.2 c rfl; omega)]
      · rfl

/-- With enough fuel the mutual recursion of `errors.As` returns what `stderrors.As` does. -/
theorem stderrors.asFuel_eq (e : Err) (target : AsTarget) (slot : error) (n : Nat)
    (hn : 3 * e.depth + 1 ≤ n) :
    stderrors.AsFuel n (some e) target slot = some (stderrors.As (some e) target slot) := by
  obtain ⟨m, rfl⟩ : ∃ m, n = m + 1 := ⟨n - 1, by omega⟩
  cases target with
  | slot acc =>
    rw [stderrors.asFuel_succ, stderrors.asLoopFuel_eq acc e m (by omega)]
    rfl
  | _ => rfl

/-- With fuel of at least the depth, `Error` with fuel returns the text of `Error`. -/
theorem Err.errorFuel_eq : ∀ (e : Err) (n : Nat), e.depth ≤ n → Err.ErrorFuel n e = some e.Error := by
  intro e
  induction e using Err.induct with
  | plain ty c val text =>
    intro n hn
    simp only [Err.depth] at hn
    obtain ⟨m, rfl⟩ : ∃ m, n = m + 1 := ⟨n - 1, by omega⟩
    rfl
  | wrapped a cause err ihe ihc =>
    intro n hn
    cases cause with
    | none =>
      simp only [Err.depth] at hn
      obtain ⟨m, rfl⟩ : ∃ m, n = m + 1 := ⟨n - 1, by omega⟩
      simp [Err.ErrorFuel, Err.Error, ihe m (by omega)]
    | some c =>
      simp only [Err.depth] at hn
      obtain ⟨m, rfl⟩ : ∃ m, n = m + 1 := ⟨n - 1, by omega⟩
      simp [Err.ErrorFuel, Err.Error, ihe m (by omega), ihc c rfl m (by omega)]
  | message a cause err msg ihe ihc =>
    intro n hn
    cases cause with
    | none =>
      simp only [Err.depth] at hn
      obtain ⟨m, rfl⟩ : ∃ m, n = m + 1 := ⟨n - 1, by omega⟩
      simp [Err.ErrorFuel, Err.Error, ihe m (by omega)]
    | some c =>
      simp only [Err.depth] at hn
      obtain ⟨m, rfl⟩ : ∃ m, n = m + 1 := ⟨n - 1, by omega⟩
      simp [Err.ErrorFuel, Err.Error, ihe m (by omega), ihc c rfl m (by omega)]

/-- C18: for every chain, the mutual recursion of the source between `errors.Is` and
`(*wrappedError).Is`, between `errors.As` and `(*wrappedError).As`, and the recursion of
`Error` through `err` and `cause` all return once the fuel exceeds three times the depth of
the chain, with the results of `Is`, `As` and `Error`. -/
theorem source_recursion_terminates (chain : Err) (target : error) (tgt : AsTarget)
    (slot : error) (n : Nat) (hn : 3 * chain.depth + 1 ≤ n) :
    stderrors.IsFuel n (some chain) target = some (Is (some chain) target) ∧
    stderrors.AsFuel n (some chain) tgt slot = some (As (some chain) tgt slot) ∧
    Err.ErrorFuel n chain = some chain.Error :=
  ⟨stderrors.isFuel_eq chain target n hn, stderrors.asFuel_eq chain tgt slot n hn,
    Err.errorFuel_eq chain n (by omega)⟩

/-- C18 on the chain of three nested nodes, with fuel 13. -/
theorem source_recursion_terminates_witness :
    stderrors.IsFuel 13 (some (wrapChain 3)) (some otherError) =
      some (Is (some (wrapChain 3)) (some otherError)) ∧
    stderrors.AsFuel 13 (some (wrapChain 3)) (.slot missingErrorSlot) none =
      some (As (some (wrapChain 3)) (.slot missingErrorSlot) none) ∧
    Err.ErrorFuel 13 (wrapChain 3) = some (wrapChain 3).Error :=
  source_recursion_terminates (wrapChain 3) (some otherError) (.slot missingErrorSlot) none 13
    (by decide)

end Errorchain
